import Mathlib

/-!
Verification of the response-aggregation and artifact-extraction pipeline of the
data-science-agent repository.  The definitions below are a shallow embedding of
`src/services/agent_service.py` (the `AgentChatService.send_message` event loop,
the `_extract_embedded_figures` rewriter and the `_ensure_session` registry) and
of the API boundary in `src/api.py` (`create_chat_completion` and the pydantic
response models).  Events delivered by the external agent runtime are modelled
as explicit data, the asynchronous stream as a list consumed in order, and the
artifact store behind `artifact_delta` as a lookup function.
-/

set_option maxRecDepth 8000

namespace DSAgent

/-! ### Python string helpers -/

/-- ASCII whitespace as stripped by `str.strip()` / `str.split()` and matched by
the regex class `\s` (whitespace beyond ASCII is not modelled). -/
def isPySpace (c : Char) : Bool :=
  c == ' ' || c == '\t' || c == '\n' || c == '\r' || c == '\x0b' || c == '\x0c'

/-- Python `value or default` for an optional string attribute: both `None` and
the empty string are falsy. -/
def pyOr (o : Option String) (d : String) : String :=
  match o with
  | some s => if s = "" then d else s
  | none => d

/-- `str.strip()` on a character list. -/
def pyStripL (l : List Char) : List Char :=
  ((l.dropWhile isPySpace).reverse.dropWhile isPySpace).reverse

/-- `str.strip()`. -/
def pyStrip (s : String) : String := String.mk (pyStripL s.data)

/-! ### base64 (the parts of the `base64` module used by the source) -/

/-- A character of the standard base64 alphabet (excluding padding). -/
def isB64Char (c : Char) : Bool := c.isAlpha || c.isDigit || c == '+' || c == '/'

/-- `base64.b64decode(s, validate=True)` succeeds (CPython 3.11
`binascii.a2b_base64` with strict mode): data characters from the standard
alphabet followed by one contiguous block of padding; without padding the
number of data characters must be a multiple of four; with padding there must
be at least one data character, and for `a` data characters and `p` padding
characters: `a % 4 = 0` accepts any `p`, `a % 4 = 2` requires `p = 2`,
`a % 4 = 3` requires `p = 1`, and `a % 4 = 1` is always rejected.  This was
validated exhaustively against CPython on alphabet-and-padding strings. -/
def b64Valid (l : List Char) : Bool :=
  let dat := l.takeWhile isB64Char
  let rest := l.dropWhile isB64Char
  if rest.all (· == '=') then
    if rest.length == 0 then dat.length % 4 == 0
    else if dat.length == 0 then false
    else if dat.length % 4 == 0 then true
    else if dat.length % 4 == 2 then rest.length == 2
    else if dat.length % 4 == 3 then rest.length == 1
    else false
  else false

/-- The standard base64 alphabet. -/
def b64Chars : List Char :=
  "ABCDEFGHIJKLMNOPQRSTUVWXYZabcdefghijklmnopqrstuvwxyz0123456789+/".data

/-- Alphabet character of a 6-bit group. -/
def b64CharOf (n : Nat) : Char := b64Chars.getD n 'A'

/-- `base64.b64encode` on a byte sequence, producing base64 text. -/
def b64EncodeBytes : List Nat → List Char
  | [] => []
  | [b0] => [b64CharOf (b0 / 4), b64CharOf (b0 % 4 * 16), '=', '=']
  | [b0, b1] =>
    [b64CharOf (b0 / 4), b64CharOf (b0 % 4 * 16 + b1 / 16), b64CharOf (b1 % 16 * 4), '=']
  | b0 :: b1 :: b2 :: bs =>
    b64CharOf (b0 / 4) :: b64CharOf (b0 % 4 * 16 + b1 / 16)
      :: b64CharOf (b1 % 16 * 4 + b2 / 64) :: b64CharOf (b2 % 64) :: b64EncodeBytes bs

/-! ### UTF-8 (`str.encode` and `bytes.decode` as used by the source) -/

/-- UTF-8 encoding of one scalar value. -/
def utf8EncodeChar (c : Char) : List Nat :=
  let n := c.toNat
  if n < 0x80 then [n]
  else if n < 0x800 then [0xC0 + n / 64, 0x80 + n % 64]
  else if n < 0x10000 then [0xE0 + n / 4096, 0x80 + n / 64 % 64, 0x80 + n % 64]
  else [0xF0 + n / 262144, 0x80 + n / 4096 % 64, 0x80 + n / 64 % 64, 0x80 + n % 64]

/-- `s.encode("utf-8")`. -/
def utf8Encode (s : String) : List Nat := (s.data.map utf8EncodeChar).flatten

/-- A UTF-8 continuation byte. -/
def isContByte (b : Nat) : Bool := 0x80 ≤ b && b < 0xC0

/-- Strict `bytes.decode("utf-8")`: `none` models `UnicodeDecodeError` (invalid
leading bytes, truncated sequences, overlong forms, surrogates, out of range). -/
def utf8Decode : List Nat → Option (List Char)
  | [] => some []
  | b :: bs =>
    if b < 0x80 then
      match utf8Decode bs with
      | some cs => some (Char.ofNat b :: cs)
      | none => none
    else if b < 0xC2 then none
    else if b < 0xE0 then
      match bs with
      | b1 :: bs1 =>
        if isContByte b1 then
          match utf8Decode bs1 with
          | some cs => some (Char.ofNat ((b - 0xC0) * 64 + (b1 - 0x80)) :: cs)
          | none => none
        else none
      | [] => none
    else if b < 0xF0 then
      match bs with
      | b1 :: b2 :: bs2 =>
        if isContByte b1 && isContByte b2 then
          let n := (b - 0xE0) * 4096 + (b1 - 0x80) * 64 + (b2 - 0x80)
          if n < 0x800 || (0xD800 ≤ n && n < 0xE000) then none
          else
            match utf8Decode bs2 with
            | some cs => some (Char.ofNat n :: cs)
            | none => none
        else none
      | _ => none
    else if b < 0xF5 then
      match bs with
      | b1 :: b2 :: b3 :: bs3 =>
        if isContByte b1 && isContByte b2 && isContByte b3 then
          let n := (b - 0xF0) * 262144 + (b1 - 0x80) * 4096 + (b2 - 0x80) * 64 + (b3 - 0x80)
          if n < 0x10000 || 0x10FFFF < n then none
          else
            match utf8Decode bs3 with
            | some cs => some (Char.ofNat n :: cs)
            | none => none
        else none
      | _ => none
    else none

/-! ### The inline figure extractor (`_FIGURE_DATA_PATTERN` / `_extract_embedded_figures`)

The regex `FIGURE(?:\[(?P<title>[^\]]+)\])?:\s*(?P<data>data:image/[a-zA-Z0-9.+\-]+;base64,[A-Za-z0-9+/=\s]+)`
is embedded as a deterministic matcher: every quantified subpattern in it is
followed by a character its class excludes, so greedy matching needs no
backtracking and leftmost scanning reproduces `re.sub` exactly. -/

/-- One artifact dictionary as built by `send_message`.  `name = none` models a
dict with no `"name"` key at all (the first inline-data branch builds such a
dict); every other ingestion point fills the key with a string. -/
structure ArtifactEntry where
  name : Option String
  mimeType : String
  data : String
  displayName : Option String
deriving DecidableEq, Repr

/-- Character allowed in the regex title group `[^\]]+`. -/
def isTitleChar (c : Char) : Bool := c != ']'

/-- Character allowed in the mime subtype group `[a-zA-Z0-9.+\-]+`. -/
def isSubtypeChar (c : Char) : Bool := c.isAlpha || c.isDigit || c == '.' || c == '+' || c == '-'

/-- Character allowed in the payload group `[A-Za-z0-9+/=\s]+`. -/
def isPayloadChar (c : Char) : Bool :=
  c.isAlpha || c.isDigit || c == '+' || c == '/' || c == '=' || isPySpace c

/-- Character kept unchanged by the name sanitizer `re.sub(r"[^A-Za-z0-9._-]+", "_", ·)`. -/
def isSafeChar (c : Char) : Bool := c.isAlpha || c.isDigit || c == '.' || c == '_' || c == '-'

/-- Match a literal character sequence, returning the remaining input. -/
def dropLit : List Char → List Char → Option (List Char)
  | [], l => some l
  | _ :: _, [] => none
  | c :: cs, x :: xs => if x = c then dropLit cs xs else none

/-- One regex match. `matched` is group 0, `dataGroup` the named `data` group and
`rest` the input after the match. -/
structure FigMatch where
  matched : List Char
  title : Option (List Char)
  dataGroup : List Char
  rest : List Char
deriving DecidableEq, Repr

/-- The characters the optional `(?:\[(?P<title>[^\]]+)\])?` group contributes
to group 0. -/
def titleGroupChars : Option (List Char) → List Char
  | some t => '[' :: (t ++ [']'])
  | none => []

/-- The part of the pattern after the optional `[title]` group: `:`, `\s*`, then
the `data` group `data:image/<subtype>;base64,<payload>`. -/
def afterTitle (title : Option (List Char)) (r : List Char) : Option FigMatch :=
  match r with
  | [] => none
  | c :: r3 =>
    if c = ':' then
      let ws := r3.takeWhile isPySpace
      let r4 := r3.dropWhile isPySpace
      match dropLit "data:image/".data r4 with
      | some r5 =>
        let sub := r5.takeWhile isSubtypeChar
        if sub = [] then none
        else
          match dropLit ";base64,".data (r5.dropWhile isSubtypeChar) with
          | some r7 =>
            let payload := r7.takeWhile isPayloadChar
            if payload = [] then none
            else
              let dataGroup := "data:image/".data ++ (sub ++ (";base64,".data ++ payload))
              some { matched := "FIGURE".data ++
                       (titleGroupChars title ++ (':' :: (ws ++ dataGroup))),
                     title := title,
                     dataGroup := dataGroup,
                     rest := r7.dropWhile isPayloadChar }
          | none => none
      | none => none
    else none

/-- Match `_FIGURE_DATA_PATTERN` at the head of the input.  When the input after
`FIGURE` begins with `[` but the bracketed group cannot complete, the regex
falls back to the group-less alternative, which then fails on the mandatory
`:` (the head is `[`), so the whole match fails. -/
def matchFigure (l : List Char) : Option FigMatch :=
  match dropLit "FIGURE".data l with
  | none => none
  | some r =>
    match r with
    | [] => none
    | c :: r1 =>
      if c = '[' then
        let t := r1.takeWhile isTitleChar
        if t = [] then none
        else
          match r1.dropWhile isTitleChar with
          | c2 :: r2 => if c2 = ']' then afterTitle (some t) r2 else none
          | [] => none
      else afterTitle none (c :: r1)

/-- The run-collapsing sanitizer `re.sub(r"[^A-Za-z0-9._-]+", "_", ·)`: the flag
records whether the previous character was part of an unsafe run. -/
def sanitizeAux : Bool → List Char → List Char
  | _, [] => []
  | inRun, c :: cs =>
    if isSafeChar c then c :: sanitizeAux false cs
    else if inRun then sanitizeAux true cs
    else '_' :: sanitizeAux true cs

/-- `re.sub(r"[^A-Za-z0-9._-]+", "_", ·)`. -/
def sanitizeRuns (l : List Char) : List Char := sanitizeAux false l

/-- The `_replace` callback of `_extract_embedded_figures`: returns the
replacement text for the matched span together with the artifact appended, if
any.  Both failure paths (`ValueError` from `split` — unreachable for this
pattern — and `binascii.Error` from validation) return the match unchanged. -/
def figReplace (m : FigMatch) : List Char × Option ArtifactEntry :=
  let dataUri := m.dataGroup
  let title := m.title.getD "figure".data
  if dataUri.any (· == ',') then
    let pre := dataUri.takeWhile (· != ',')
    let encoded := (dataUri.dropWhile (· != ',')).drop 1
    let mimeRaw := (pre.drop 5).takeWhile (· != ';')
    let mime := if mimeRaw = [] then "image/png".data else mimeRaw
    let cleaned := encoded.filter (fun c => !isPySpace c)
    if b64Valid cleaned then
      let stripped := pyStripL title
      let base := if stripped = [] then "figure".data else stripped
      let safe := sanitizeAux false base
      let nm := if ".png".data.isSuffixOf (safe.map Char.toLower) then safe
                else safe ++ ".png".data
      let disp := if stripped = [] then safe else stripped
      ("[See figure: ".data ++ (disp ++ "]".data),
        some { name := some (String.mk nm), mimeType := String.mk mime,
               data := String.mk cleaned, displayName := some (String.mk disp) })
    else (m.matched, none)
  else (m.matched, none)

/-- `re.sub` scanning: try a match at each position, replace and continue after
the matched span.  The fuel argument is instantiated with the input length,
which suffices because every step consumes at least one character. -/
def subFigF : Nat → List Char → List ArtifactEntry × List Char
  | 0, l => ([], l)
  | _ + 1, [] => ([], [])
  | fuel + 1, c :: cs =>
    match matchFigure (c :: cs) with
    | some m =>
      let ra := figReplace m
      let tl := subFigF fuel m.rest
      (ra.2.toList ++ tl.1, ra.1 ++ tl.2)
    | none =>
      let tl := subFigF fuel cs
      (tl.1, c :: tl.2)

/-- `AgentChatService._extract_embedded_figures`. -/
def extractEmbeddedFigures (s : String) : String × List ArtifactEntry :=
  if s = "" then (s, [])
  else
    let res := subFigF s.data.length s.data
    (String.mk res.2, res.1)

/-! ### The event data model (duck-typed runner events) -/

/-- A `function_call` fragment; `args or {}` turns a missing mapping into the
empty one. -/
structure FunctionCallE where
  name : String
  args : Option (List (String × String)) := none
deriving DecidableEq, Repr

/-- A `function_response` fragment. -/
structure FunctionRespE where
  name : String
  response : Option (List (String × String)) := none
deriving DecidableEq, Repr

/-- One output file of a `code_execution_result`. -/
structure OutputFileE where
  name : Option String := none
  content : Option String := none
  mimeType : Option String := none
  displayName : Option String := none
deriving DecidableEq, Repr

/-- A `code_execution_result` fragment. -/
structure CodeResultE where
  outputFiles : Option (List OutputFileE) := none
deriving DecidableEq, Repr

/-- An inline binary payload: either base64-ish text or raw bytes. -/
inductive BlobData where
  | str (s : String)
  | bytes (b : List Nat)
deriving DecidableEq, Repr

/-- An `inline_data` blob. -/
structure BlobE where
  data : Option BlobData := none
  mimeType : Option String := none
  displayName : Option String := none
deriving DecidableEq, Repr

/-- One content part of an event. -/
structure PartE where
  text : Option String := none
  functionCall : Option FunctionCallE := none
  functionResponse : Option FunctionRespE := none
  codeExecutionResult : Option CodeResultE := none
  inlineData : Option BlobE := none
deriving DecidableEq, Repr

/-- Event content. -/
structure ContentE where
  parts : Option (List PartE) := none
deriving DecidableEq, Repr

/-- Event actions carrying the `artifact_delta` mapping (filename to version,
in dict insertion order). -/
structure ActionsE where
  artifactDelta : Option (List (String × Nat)) := none
deriving DecidableEq, Repr

/-- One event of the asynchronous stream. -/
structure EventE where
  content : Option ContentE := none
  actions : Option ActionsE := none
deriving DecidableEq, Repr

/-- A collected tool call. -/
structure ToolCallE where
  name : String
  args : List (String × String)
deriving DecidableEq, Repr

/-- A collected tool response. -/
structure ToolRespE where
  name : String
  response : List (String × String)
deriving DecidableEq, Repr

/-- Mutable state of one turn of `send_message`. -/
structure TurnState where
  textChunks : List String
  toolCalls : List ToolCallE
  toolResponses : List ToolRespE
  artifacts : List ArtifactEntry
  seen : List (String × String)
deriving DecidableEq, Repr

/-- The exceptions `send_message` itself can raise. -/
inductive TurnError where
  | unicodeDecodeError
deriving DecidableEq, Repr

/-- Python truthiness of an inline payload: empty text and empty bytes are falsy. -/
def blobTruthy : BlobData → Bool
  | .str s => s != ""
  | .bytes b => !b.isEmpty

/-- The `artifact_service.load_artifact` boundary, keyed by filename and version. -/
def Store := String → Nat → Option PartE

/-! ### The `send_message` event loop, branch by branch -/

/-- `if getattr(part, "text", None): text_chunks.append(part.text)`. -/
def pushText (p : PartE) (st : TurnState) : TurnState :=
  match p.text with
  | some t => if t = "" then st else { st with textChunks := st.textChunks ++ [t] }
  | none => st

/-- The `function_call` branch. -/
def pushToolCall (p : PartE) (st : TurnState) : TurnState :=
  match p.functionCall with
  | some fc => { st with toolCalls := st.toolCalls ++ [{ name := fc.name, args := fc.args.getD [] }] }
  | none => st

/-- The `function_response` branch. -/
def pushToolResponse (p : PartE) (st : TurnState) : TurnState :=
  match p.functionResponse with
  | some fr =>
    { st with toolResponses := st.toolResponses ++ [{ name := fr.name, response := fr.response.getD [] }] }
  | none => st

/-- One output file of a code-execution result: skip falsy content, then a
dedup-checked append keyed by `(name, encoded)`. -/
def ingestOutputFile (st : TurnState) (f : OutputFileE) : TurnState :=
  match f.content with
  | none => st
  | some enc =>
    if enc = "" then st
    else
      let nm := pyOr f.name "artifact"
      let key := (nm, enc)
      if key ∈ st.seen then st
      else
        { st with
          artifacts := st.artifacts ++
            [{ name := some nm, mimeType := pyOr f.mimeType "application/octet-stream",
               data := enc, displayName := some (pyOr f.displayName nm) }],
          seen := key :: st.seen }

/-- The `code_execution_result` branch. -/
def ingestCodeResult (p : PartE) (st : TurnState) : TurnState :=
  match p.codeExecutionResult with
  | none => st
  | some cr => (cr.outputFiles.getD []).foldl ingestOutputFile st

/-- The first `inline_data` branch (source lines 110-122): appends a dict with
no `"name"` key, raw text payload (bytes are decoded as UTF-8, which can raise),
and no dedup check. -/
def inlineFirst (p : PartE) (st : TurnState) : Except TurnError TurnState :=
  match p.inlineData with
  | none => .ok st
  | some bl =>
    match bl.data with
    | none => .ok st
    | some d =>
      if blobTruthy d then
        match d with
        | .str s =>
          .ok { st with artifacts := st.artifacts ++
                 [{ name := none, mimeType := pyOr bl.mimeType "application/octet-stream",
                    data := s, displayName := bl.displayName }] }
        | .bytes b =>
          match utf8Decode b with
          | some cs =>
            .ok { st with artifacts := st.artifacts ++
                   [{ name := none, mimeType := pyOr bl.mimeType "application/octet-stream",
                      data := String.mk cs, displayName := bl.displayName }] }
          | none => .error .unicodeDecodeError
      else .ok st

/-- Normalization of an inline payload to base64 text: already-valid base64 text
is kept, other text is UTF-8-encoded then base64-encoded, raw bytes are
base64-encoded. -/
def normalizeB64 : BlobData → String
  | .str s => if b64Valid s.data then s else String.mk (b64EncodeBytes (utf8Encode s))
  | .bytes b => String.mk (b64EncodeBytes b)

/-- The second `inline_data` branch (source lines 124-149): normalized payload,
name from `display_name or "artifact"`, dedup-checked append. -/
def inlineSecond (p : PartE) (st : TurnState) : TurnState :=
  match p.inlineData with
  | none => st
  | some bl =>
    match bl.data with
    | none => st
    | some d =>
      if blobTruthy d then
        let encoded := normalizeB64 d
        let nm := pyOr bl.displayName "artifact"
        let key := (nm, encoded)
        if key ∈ st.seen then st
        else
          { st with
            artifacts := st.artifacts ++
              [{ name := some nm, mimeType := pyOr bl.mimeType "application/octet-stream",
                 data := encoded, displayName := bl.displayName }],
            seen := key :: st.seen }
      else st

/-- Processing of one content part: the source checks each fragment kind with an
independent `if`, in this order. -/
def processPart (st : TurnState) (p : PartE) : Except TurnError TurnState :=
  let st1 := pushText p st
  let st2 := pushToolCall p st1
  let st3 := pushToolResponse p st2
  let st4 := ingestCodeResult p st3
  match inlineFirst p st4 with
  | .error e => .error e
  | .ok st5 => .ok (inlineSecond p st5)

/-- `for part in content.parts`. -/
def processParts : TurnState → List PartE → Except TurnError TurnState
  | st, [] => .ok st
  | st, p :: ps =>
    match processPart st p with
    | .error e => .error e
    | .ok st' => processParts st' ps

/-- One `artifact_delta` item: fetch from the store, skip a missing artifact
silently, otherwise normalize and dedup-append keyed by `(filename, encoded)`. -/
def ingestDeltaItem (store : Store) (st : TurnState) (item : String × Nat) : TurnState :=
  match store item.1 item.2 with
  | none => st
  | some p =>
    match p.inlineData with
    | none => st
    | some bl =>
      match bl.data with
      | none => st
      | some d =>
        if blobTruthy d then
          let encoded := normalizeB64 d
          let key := (item.1, encoded)
          if key ∈ st.seen then st
          else
            { st with
              artifacts := st.artifacts ++
                [{ name := some item.1, mimeType := pyOr bl.mimeType "application/octet-stream",
                   data := encoded, displayName := some (pyOr bl.displayName item.1) }],
              seen := key :: st.seen }
        else st

/-- The `artifact_delta` handling of one event (an empty dict is falsy and
skipped; the runner always provides an artifact service). -/
def processDelta (store : Store) (acts : Option ActionsE) (st : TurnState) : TurnState :=
  match acts with
  | none => st
  | some a =>
    match a.artifactDelta with
    | none => st
    | some items => if items = [] then st else items.foldl (ingestDeltaItem store) st

/-- One event: events with falsy content or falsy parts are skipped entirely
(the `continue` also skips the delta handling). -/
def processEvent (store : Store) (st : TurnState) (ev : EventE) : Except TurnError TurnState :=
  match ev.content with
  | none => .ok st
  | some c =>
    match c.parts with
    | none => .ok st
    | some [] => .ok st
    | some (p :: ps) =>
      match processParts st (p :: ps) with
      | .error e => .error e
      | .ok st' => .ok (processDelta store ev.actions st')

/-- The full event loop. -/
def processEvents (store : Store) : TurnState → List EventE → Except TurnError TurnState
  | st, [] => .ok st
  | st, ev :: evs =>
    match processEvent store st ev with
    | .error e => .error e
    | .ok st' => processEvents store st' evs

/-- The empty turn state. -/
def initTurnState : TurnState :=
  { textChunks := [], toolCalls := [], toolResponses := [], artifacts := [], seen := [] }

/-- The structured result of one turn. -/
structure SendResult where
  text : String
  toolCalls : List ToolCallE
  toolResponses : List ToolRespE
  artifacts : List ArtifactEntry
deriving DecidableEq, Repr

/-- `AgentChatService.send_message`, parameterized by the event stream the runner
produces for this turn and by the artifact store. -/
def sendMessage (store : Store) (events : List EventE) : Except TurnError SendResult :=
  match processEvents store initTurnState events with
  | .error e => .error e
  | .ok st =>
    let combined := pyStrip (String.join st.textChunks)
    let extracted := extractEmbeddedFigures combined
    .ok { text := extracted.1, toolCalls := st.toolCalls,
          toolResponses := st.toolResponses, artifacts := st.artifacts ++ extracted.2 }

/-! ### The API boundary (`src/api.py`) -/

/-- The pydantic `Artifact` response model: `name`, `mime_type` and `data` are
required fields. -/
structure ArtifactModel where
  name : String
  mimeType : String
  data : String
  displayName : Option String
deriving DecidableEq, Repr

/-- The pydantic `ChatResponse` model. -/
structure ChatResponseM where
  text : String
  toolCalls : List ToolCallE
  toolResponses : List ToolRespE
  artifacts : List ArtifactModel
deriving DecidableEq, Repr

/-- Failures observable at the API boundary: the explicit
`HTTPException(status_code=500, detail=...)` raised in the handler, or the
pydantic validation error escaping it. -/
inductive ApiError where
  | httpException (status : Nat) (detail : String)
  | validationError
deriving DecidableEq, Repr

/-- `Artifact(**item)`: validation fails when the dict has no `"name"` key. -/
def validateArtifact (a : ArtifactEntry) : Option ArtifactModel :=
  match a.name with
  | some n => some { name := n, mimeType := a.mimeType, data := a.data, displayName := a.displayName }
  | none => none

/-- `create_chat_completion`: a failing `send_message` is converted into a
generic 500 with an opaque detail; a successful result is re-validated through
the response models (which can itself fail, outside the `try`). -/
def createChatCompletion (result : Except TurnError SendResult) : Except ApiError ChatResponseM :=
  match result with
  | .error _ => .error (.httpException 500 "Failed to retrieve agent response.")
  | .ok r =>
    match r.artifacts.mapM validateArtifact with
    | some arts =>
      .ok { text := r.text, toolCalls := r.toolCalls, toolResponses := r.toolResponses,
            artifacts := arts }
    | none => .error .validationError

/-! ### The session registry (`_ensure_session`)

Session handles returned by the external runtime are opaque; they are modelled
as naturals drawn from a fresh counter.  The single lock serializes the
check-then-create step, so the registry is modelled as sequential state. -/

/-- The `_sessions` mapping together with the runtime handle supply. -/
structure SessionState where
  sessions : List (String × Nat)
  nextHandle : Nat
deriving DecidableEq, Repr

/-- `_ensure_session`: return the stored handle, or create and store a fresh one. -/
def ensureSession (st : SessionState) (userId : String) : Nat × SessionState :=
  match st.sessions.lookup userId with
  | some h => (h, st)
  | none =>
    (st.nextHandle,
     { sessions := (userId, st.nextHandle) :: st.sessions, nextHandle := st.nextHandle + 1 })

/-! ### Spec-side definitions used by the theorem statements -/

/-- The spec phrase "replace any character outside `[A-Za-z0-9._-]` with `_`"
read per character (the source instead collapses each unsafe run to one `_`). -/
def sanitizePerChar (l : List Char) : List Char :=
  l.map (fun c => if isSafeChar c then c else '_')

/-- The dedup key of an artifact entry that carries a name. -/
def namedKey (a : ArtifactEntry) : Option (String × String) :=
  a.name.map (fun n => (n, a.data))

/-- The dedup keys of the named entries of an artifact list. -/
def namedKeys (l : List ArtifactEntry) : List (String × String) := l.filterMap namedKey

/-- The truthy text of one part, as appended to the text buffer. -/
def partTextFragment (p : PartE) : Option String :=
  match p.text with
  | some t => if t = "" then none else some t
  | none => none

/-- The text fragments contributed by one event. -/
def eventTextFragments (ev : EventE) : List String :=
  match ev.content with
  | none => []
  | some c =>
    match c.parts with
    | none => []
    | some ps => ps.filterMap partTextFragment

/-- The text fragments of the whole turn, in event-arrival order. -/
def turnTextFragments (events : List EventE) : List String :=
  (events.map eventTextFragments).flatten

/-- No position of the text begins a match of the figure pattern. -/
def noMarker : List Char → Bool
  | [] => true
  | c :: cs => (matchFigure (c :: cs)).isNone && noMarker cs

/-- Every match found along the `re.sub` scan fails validation and so produces
no artifact and an unchanged span. -/
def malformedOnly : Nat → List Char → Bool
  | 0, _ => true
  | _ + 1, [] => true
  | fuel + 1, c :: cs =>
    match matchFigure (c :: cs) with
    | some m => ((figReplace m).2).isNone && malformedOnly fuel m.rest
    | none => malformedOnly fuel cs

/-- The characters of a well-formed marker
`FIGURE[<T>]: data:image/<S>;base64,<P>` (single space after the colon). -/
def markerChars (T S P : List Char) : List Char :=
  "FIGURE".data ++
    ('[' :: (T ++ (']' :: (':' :: (' ' ::
      ("data:image/".data ++ (S ++ (";base64,".data ++ P))))))))

/-- The marker as a string. -/
def markerString (T S P : List Char) : String := String.mk (markerChars T S P)

/-! ### List helper lemmas -/

theorem dropLit_append : ∀ (lit r : List Char), dropLit lit (lit ++ r) = some r
  | [], _ => rfl
  | c :: cs, r => by simp [dropLit, dropLit_append cs r]

theorem dropLit_some : ∀ {lit l r : List Char}, dropLit lit l = some r → l = lit ++ r
  | [], _, _, h => by simpa [dropLit] using congrArg (fun o => o.getD []) h
  | c :: cs, [], r, h => by simp [dropLit] at h
  | c :: cs, x :: xs, r, h => by
    by_cases hx : x = c
    · simp only [dropLit, if_pos hx] at h
      simpa [hx] using congrArg (x :: ·) (dropLit_some h)
    · simp [dropLit, hx] at h

theorem takeWhile_append_all {p : Char → Bool} :
    ∀ {l : List Char} (ys : List Char), (∀ c ∈ l, p c = true) →
      (l ++ ys).takeWhile p = l ++ ys.takeWhile p ∧ (l ++ ys).dropWhile p = ys.dropWhile p
  | [], ys, _ => by simp
  | x :: xs, ys, h => by
    have hx : p x = true := h x (by simp)
    have ih := takeWhile_append_all (l := xs) ys (fun c hc => h c (by simp [hc]))
    simp [List.takeWhile_cons, List.dropWhile_cons, hx, ih.1, ih.2]

theorem takeWhile_cons_false {p : Char → Bool} {c : Char} (l : List Char) (h : p c = false) :
    (c :: l).takeWhile p = [] ∧ (c :: l).dropWhile p = c :: l := by
  simp [List.takeWhile_cons, List.dropWhile_cons, h]

theorem takeWhile_eq_self {p : Char → Bool} {l : List Char} (h : ∀ c ∈ l, p c = true) :
    l.takeWhile p = l ∧ l.dropWhile p = [] := by
  have := takeWhile_append_all (l := l) [] h
  simpa using this

/-! ### Matching a well-formed marker -/

theorem afterTitle_marker (title : Option (List Char)) (S P : List Char)
    (hS0 : S ≠ []) (hS : ∀ c ∈ S, isSubtypeChar c = true)
    (hP0 : P ≠ []) (hP : ∀ c ∈ P, isPayloadChar c = true) :
    afterTitle title (':' :: (' ' :: ("data:image/".data ++ (S ++ (";base64,".data ++ P))))) =
      some { matched := "FIGURE".data ++
               (titleGroupChars title ++
                (':' :: (' ' :: ("data:image/".data ++ (S ++ (";base64,".data ++ P)))))),
             title := title,
             dataGroup := "data:image/".data ++ (S ++ (";base64,".data ++ P)),
             rest := [] } := by
  have hsub : List.takeWhile isSubtypeChar
        (S ++ ';' :: 'b' :: 'a' :: 's' :: 'e' :: '6' :: '4' :: ',' :: P) = S ∧
      List.dropWhile isSubtypeChar
        (S ++ ';' :: 'b' :: 'a' :: 's' :: 'e' :: '6' :: '4' :: ',' :: P) =
        ';' :: 'b' :: 'a' :: 's' :: 'e' :: '6' :: '4' :: ',' :: P := by
    have h1 := takeWhile_append_all (p := isSubtypeChar) (l := S)
      (';' :: 'b' :: 'a' :: 's' :: 'e' :: '6' :: '4' :: ',' :: P) hS
    have h2 := takeWhile_cons_false (p := isSubtypeChar)
      ('b' :: 'a' :: 's' :: 'e' :: '6' :: '4' :: ',' :: P) (c := ';') (by decide)
    exact ⟨by rw [h1.1, h2.1, List.append_nil], by rw [h1.2, h2.2]⟩
  have hpay := takeWhile_eq_self (p := isPayloadChar) (l := P) hP
  simp [afterTitle, isPySpace, dropLit, hsub.1, hsub.2, hpay.1, hpay.2, hS0, hP0]

theorem matchFigure_marker (T S P : List Char)
    (hT0 : T ≠ []) (hT : ∀ c ∈ T, isTitleChar c = true)
    (hS0 : S ≠ []) (hS : ∀ c ∈ S, isSubtypeChar c = true)
    (hP0 : P ≠ []) (hP : ∀ c ∈ P, isPayloadChar c = true) :
    matchFigure (markerChars T S P) =
      some { matched := markerChars T S P,
             title := some T,
             dataGroup := "data:image/".data ++ (S ++ (";base64,".data ++ P)),
             rest := [] } := by
  have htit : List.takeWhile isTitleChar
        (T ++ (']' :: (':' :: (' ' :: ("data:image/".data ++ (S ++ (";base64,".data ++ P))))))) = T ∧
      List.dropWhile isTitleChar
        (T ++ (']' :: (':' :: (' ' :: ("data:image/".data ++ (S ++ (";base64,".data ++ P))))))) =
        ']' :: (':' :: (' ' :: ("data:image/".data ++ (S ++ (";base64,".data ++ P))))) := by
    have h1 := takeWhile_append_all (p := isTitleChar) (l := T)
      (']' :: (':' :: (' ' :: ("data:image/".data ++ (S ++ (";base64,".data ++ P)))))) hT
    have h2 := takeWhile_cons_false (p := isTitleChar)
      (':' :: (' ' :: ("data:image/".data ++ (S ++ (";base64,".data ++ P))))) (c := ']') (by decide)
    exact ⟨by rw [h1.1, h2.1, List.append_nil], by rw [h1.2, h2.2]⟩
  have ha := afterTitle_marker (some T) S P hS0 hS hP0 hP
  unfold markerChars matchFigure
  rw [dropLit_append]
  simp only [htit.1, htit.2, if_pos rfl, hT0, ite_false, if_neg hT0]
  rw [ha]
  simp [markerChars, titleGroupChars, List.append_assoc]

/-- The regex match produced on a well-formed marker. -/
def markerMatch (T S P : List Char) : FigMatch where
  matched := markerChars T S P
  title := some T
  dataGroup := "data:image/".data ++ (S ++ (";base64,".data ++ P))
  rest := []

theorem matchFigure_marker_eq (T S P : List Char)
    (hT0 : T ≠ []) (hT : ∀ c ∈ T, isTitleChar c = true)
    (hS0 : S ≠ []) (hS : ∀ c ∈ S, isSubtypeChar c = true)
    (hP0 : P ≠ []) (hP : ∀ c ∈ P, isPayloadChar c = true) :
    matchFigure (markerChars T S P) = some (markerMatch T S P) := by
  rw [matchFigure_marker T S P hT0 hT hS0 hS hP0 hP]
  rfl

theorem subFigF_nil (fuel : Nat) : subFigF fuel [] = ([], []) := by
  cases fuel <;> rfl

theorem extract_marker (T S P : List Char)
    (hT0 : T ≠ []) (hT : ∀ c ∈ T, isTitleChar c = true)
    (hS0 : S ≠ []) (hS : ∀ c ∈ S, isSubtypeChar c = true)
    (hP0 : P ≠ []) (hP : ∀ c ∈ P, isPayloadChar c = true) :
    extractEmbeddedFigures (markerString T S P) =
      (String.mk ((figReplace (markerMatch T S P)).1),
       ((figReplace (markerMatch T S P)).2).toList) := by
  have hm := matchFigure_marker_eq T S P hT0 hT hS0 hS hP0 hP
  have hlen : (markerChars T S P).length ≠ 0 := by simp [markerChars]
  have hne : markerString T S P ≠ "" := by
    intro h
    exact hlen (by simpa [markerString] using congrArg String.length h)
  unfold extractEmbeddedFigures
  rw [if_neg hne]
  have hdata : (markerString T S P).data = markerChars T S P := rfl
  rw [hdata]
  obtain ⟨n, hn⟩ := Nat.exists_eq_succ_of_ne_zero hlen
  rw [hn]
  have hcons : markerChars T S P =
      'F' :: ("IGURE".data ++ ('[' :: (T ++ (']' :: (':' :: (' ' ::
        ("data:image/".data ++ (S ++ (";base64,".data ++ P))))))))) := rfl
  rw [hcons]
  simp only [subFigF]
  rw [← hcons, hm]
  have hrest : (markerMatch T S P).rest = [] := rfl
  simp [hrest, subFigF_nil]

/-! ### The replacement computation on a well-formed marker -/

/-- `title.strip() or "figure"`. -/
def titleBase (T : List Char) : List Char :=
  if pyStripL T = [] then "figure".data else pyStripL T

/-- The sanitized safe name derived from the title. -/
def safeNameOf (T : List Char) : List Char := sanitizeAux false (titleBase T)

/-- The artifact file name: the safe name with `.png` appended unless already
present, checked case-insensitively. -/
def pngNameOf (T : List Char) : List Char :=
  if ".png".data.isSuffixOf ((safeNameOf T).map Char.toLower) then safeNameOf T
  else safeNameOf T ++ ".png".data

/-- `title.strip() or safe_name`: the display name and replacement title. -/
def displayOf (T : List Char) : List Char :=
  if pyStripL T = [] then safeNameOf T else pyStripL T

theorem figReplace_markerGen (m : FigMatch) (T S P : List Char)
    (hdg : m.dataGroup = "data:image/".data ++ (S ++ (";base64,".data ++ P)))
    (hti : m.title.getD "figure".data = T)
    (hS : ∀ c ∈ S, isSubtypeChar c = true) :
    figReplace m =
      (if b64Valid (P.filter (fun c => !isPySpace c)) then
        ("[See figure: ".data ++ (displayOf T ++ "]".data),
         some { name := some (String.mk (pngNameOf T)),
                mimeType := String.mk ("image/".data ++ (S ++ [])),
                data := String.mk (P.filter (fun c => !isPySpace c)),
                displayName := some (String.mk (displayOf T)) })
      else (m.matched, none)) := by
  have hq : ∀ c ∈ S, (c != ',') = true := by
    intro c hc
    have := hS c hc
    simp only [bne_iff_ne, ne_eq]
    intro he
    rw [he] at this
    exact absurd this (by decide)
  have hsc : ∀ c ∈ S, (c != ';') = true := by
    intro c hc
    have := hS c hc
    simp only [bne_iff_ne, ne_eq]
    intro he
    rw [he] at this
    exact absurd this (by decide)
  have e1 : ";base64,".data ++ P = ";base64".data ++ (',' :: P) := rfl
  have h2 := takeWhile_append_all (p := (· != ',')) (l := ";base64".data) (',' :: P) (by decide)
  have h3 := takeWhile_cons_false (p := (· != ',')) P (c := ',') (by decide)
  have h4 := takeWhile_append_all (p := (· != ',')) (l := S) (";base64,".data ++ P) hq
  have h5 := takeWhile_append_all (p := (· != ','))
    (l := "data:image/".data) (S ++ (";base64,".data ++ P)) (by decide)
  have hpre : (m.dataGroup).takeWhile (· != ',') =
      "data:image/".data ++ (S ++ ";base64".data) := by
    rw [hdg, h5.1, h4.1, e1, h2.1, h3.1, List.append_nil]
  have henc : (m.dataGroup).dropWhile (· != ',') = ',' :: P := by
    rw [hdg, h5.2, h4.2, e1, h2.2, h3.2]
  have hany : (m.dataGroup).any (· == ',') = true := by
    rw [hdg]
    simp
  have e2 : "data:image/".data ++ (S ++ ";base64".data) =
      'd' :: 'a' :: 't' :: 'a' :: ':' :: ("image/".data ++ (S ++ ";base64".data)) := rfl
  have e3 : ";base64".data = ';' :: "base64".data := rfl
  have h6 := takeWhile_append_all (p := (· != ';'))
    (l := "image/".data) (S ++ ";base64".data) (by decide)
  have h7 := takeWhile_append_all (p := (· != ';')) (l := S) (";base64".data) hsc
  have h8 := takeWhile_cons_false (p := (· != ';')) ("base64".data) (c := ';') (by decide)
  have hmime : (("data:image/".data ++ (S ++ ";base64".data)).drop 5).takeWhile (· != ';') =
      "image/".data ++ (S ++ []) := by
    rw [e2]
    show ("image/".data ++ (S ++ ";base64".data)).takeWhile (· != ';') = _
    rw [h6.1, h7.1, e3, h8.1]
  have hmime0 : ("image/".data ++ (S ++ [])) ≠ [] := by simp
  simp only [figReplace]
  rw [hany]
  simp only [eq_self_iff_true, if_true]
  rw [hpre, henc, hmime, hti]
  simp only [List.drop_succ_cons, List.drop_zero]
  rw [if_neg hmime0]
  by_cases hb : b64Valid (P.filter (fun c => !isPySpace c))
  · rw [if_pos hb, if_pos hb]
    by_cases hstr : pyStripL T = []
    · simp [pngNameOf, displayOf, safeNameOf, titleBase, hstr]
    · simp [pngNameOf, displayOf, safeNameOf, titleBase, hstr]
  · rw [if_neg hb, if_neg hb]

/-! ### Matching an untitled marker `FIGURE: data:image/...` (title group absent) -/

/-- The characters of a well-formed untitled marker
`FIGURE: data:image/<S>;base64,<P>` (single space after the colon). -/
def markerCharsNT (S P : List Char) : List Char :=
  "FIGURE".data ++ (':' :: (' ' :: ("data:image/".data ++ (S ++ (";base64,".data ++ P)))))

/-- The untitled marker as a string. -/
def markerStringNT (S P : List Char) : String := String.mk (markerCharsNT S P)

/-- The regex match produced on a well-formed untitled marker. -/
def markerMatchNT (S P : List Char) : FigMatch where
  matched := markerCharsNT S P
  title := none
  dataGroup := "data:image/".data ++ (S ++ (";base64,".data ++ P))
  rest := []

theorem matchFigure_markerNT (S P : List Char)
    (hS0 : S ≠ []) (hS : ∀ c ∈ S, isSubtypeChar c = true)
    (hP0 : P ≠ []) (hP : ∀ c ∈ P, isPayloadChar c = true) :
    matchFigure (markerCharsNT S P) = some (markerMatchNT S P) := by
  have ha := afterTitle_marker none S P hS0 hS hP0 hP
  unfold markerCharsNT matchFigure
  rw [dropLit_append]
  dsimp only
  rw [if_neg (show ¬((':' : Char) = '[') by decide)]
  rw [ha]
  simp [markerMatchNT, markerCharsNT, titleGroupChars]

theorem extract_markerNT (S P : List Char)
    (hS0 : S ≠ []) (hS : ∀ c ∈ S, isSubtypeChar c = true)
    (hP0 : P ≠ []) (hP : ∀ c ∈ P, isPayloadChar c = true) :
    extractEmbeddedFigures (markerStringNT S P) =
      (String.mk ((figReplace (markerMatchNT S P)).1),
       ((figReplace (markerMatchNT S P)).2).toList) := by
  have hm := matchFigure_markerNT S P hS0 hS hP0 hP
  have hlen : (markerCharsNT S P).length ≠ 0 := by simp [markerCharsNT]
  have hne : markerStringNT S P ≠ "" := by
    intro h
    exact hlen (by simpa [markerStringNT] using congrArg String.length h)
  unfold extractEmbeddedFigures
  rw [if_neg hne]
  have hdata : (markerStringNT S P).data = markerCharsNT S P := rfl
  rw [hdata]
  obtain ⟨n, hn⟩ := Nat.exists_eq_succ_of_ne_zero hlen
  rw [hn]
  have hcons : markerCharsNT S P =
      'F' :: ("IGURE".data ++ (':' :: (' ' ::
        ("data:image/".data ++ (S ++ (";base64,".data ++ P)))))) := rfl
  rw [hcons]
  simp only [subFigF]
  rw [← hcons, hm]
  have hrest : (markerMatchNT S P).rest = [] := rfl
  simp [hrest, subFigF_nil]

/-! ### Decomposition of a match and identity on unmatched text -/

theorem afterTitle_decomp {title : Option (List Char)} {r : List Char} {m : FigMatch}
    (h : afterTitle title r = some m) :
    m.matched ++ m.rest =
      "FIGURE".data ++ (titleGroupChars title ++ (':' :: r.tail)) ∧
      m.matched ≠ [] ∧ r = ':' :: r.tail := by
  cases r with
  | nil => exact absurd h (by simp [afterTitle])
  | cons c r3 =>
    unfold afterTitle at h
    dsimp only at h
    by_cases hc : c = ':'
    case neg => rw [if_neg hc] at h; exact absurd h (by simp)
    rw [if_pos hc] at h
    subst hc
    cases hdl : dropLit "data:image/".data (r3.dropWhile isPySpace) with
    | none => rw [hdl] at h; exact absurd h (by simp)
    | some r5 =>
      rw [hdl] at h
      dsimp only at h
      by_cases hsub : r5.takeWhile isSubtypeChar = []
      · rw [if_pos hsub] at h; exact absurd h (by simp)
      · rw [if_neg hsub] at h
        cases hdl2 : dropLit ";base64,".data (r5.dropWhile isSubtypeChar) with
        | none => rw [hdl2] at h; exact absurd h (by simp)
        | some r7 =>
          rw [hdl2] at h
          dsimp only at h
          by_cases hpay : r7.takeWhile isPayloadChar = []
          · rw [if_pos hpay] at h; exact absurd h (by simp)
          · rw [if_neg hpay] at h
            obtain rfl := (Option.some.inj h).symm
            have e4 := List.takeWhile_append_dropWhile isPySpace r3
            have e5 := dropLit_some hdl
            have e6 := List.takeWhile_append_dropWhile isSubtypeChar r5
            have e7 := dropLit_some hdl2
            have e8 := List.takeWhile_append_dropWhile isPayloadChar r7
            refine ⟨?_, by simp, rfl⟩
            show _ = "FIGURE".data ++ (titleGroupChars title ++ (':' :: r3))
            conv_rhs => rw [← e4, e5, ← e6, e7, ← e8]
            simp [List.append_assoc]

theorem matchFigure_decomp {l : List Char} {m : FigMatch}
    (h : matchFigure l = some m) : l = m.matched ++ m.rest ∧ m.matched ≠ [] := by
  unfold matchFigure at h
  cases hdl : dropLit "FIGURE".data l with
  | none => rw [hdl] at h; exact absurd h (by simp)
  | some r =>
    rw [hdl] at h
    dsimp only at h
    have hl := dropLit_some hdl
    cases r with
    | nil => exact absurd h (by simp)
    | cons c r1 =>
      dsimp only at h
      by_cases hc : c = '['
      · rw [if_pos hc] at h
        subst hc
        by_cases ht : r1.takeWhile isTitleChar = []
        · rw [if_pos ht] at h; exact absurd h (by simp)
        · rw [if_neg ht] at h
          cases hdw : r1.dropWhile isTitleChar with
          | nil => rw [hdw] at h; exact absurd h (by simp)
          | cons c2 r2 =>
            rw [hdw] at h
            dsimp only at h
            by_cases hc2 : c2 = ']'
            · rw [if_pos hc2] at h
              subst hc2
              obtain ⟨hdec, hne, htl2⟩ := afterTitle_decomp h
              refine ⟨?_, hne⟩
              rw [hl, hdec, ← htl2]
              have e1 := List.takeWhile_append_dropWhile isTitleChar r1
              conv_lhs => rw [← e1, hdw]
              simp [titleGroupChars, List.append_assoc]
            · rw [if_neg hc2] at h; exact absurd h (by simp)
      · rw [if_neg hc] at h
        obtain ⟨hdec, hne, htl⟩ := afterTitle_decomp h
        refine ⟨?_, hne⟩
        rw [hl, hdec, ← htl]
        simp [titleGroupChars]

theorem figReplace_none_matched {m : FigMatch} (h : (figReplace m).2 = none) :
    (figReplace m).1 = m.matched := by
  simp only [figReplace] at h ⊢
  by_cases h1 : (m.dataGroup.any (· == ',')) = true
  · rw [h1] at h ⊢
    simp only [eq_self_iff_true, if_true] at h ⊢
    by_cases h2 : b64Valid
        ((((m.dataGroup.dropWhile (· != ',')).drop 1)).filter (fun c => !isPySpace c)) = true
    · rw [if_pos h2] at h
      exact absurd h (by simp)
    · rw [if_neg h2]
  · rw [if_neg h1] at h ⊢

theorem subFigF_cons_none {fuel : Nat} {c : Char} {cs : List Char}
    (h : matchFigure (c :: cs) = none) :
    subFigF (fuel + 1) (c :: cs) = ((subFigF fuel cs).1, c :: (subFigF fuel cs).2) := by
  simp only [subFigF]
  rw [h]

theorem subFigF_cons_some {fuel : Nat} {c : Char} {cs : List Char} {m : FigMatch}
    (h : matchFigure (c :: cs) = some m) :
    subFigF (fuel + 1) (c :: cs) =
      ((figReplace m).2.toList ++ (subFigF fuel m.rest).1,
       (figReplace m).1 ++ (subFigF fuel m.rest).2) := by
  simp only [subFigF]
  rw [h]

theorem malformedOnly_cons_none {fuel : Nat} {c : Char} {cs : List Char}
    (h : matchFigure (c :: cs) = none) :
    malformedOnly (fuel + 1) (c :: cs) = malformedOnly fuel cs := by
  simp only [malformedOnly]
  rw [h]

theorem malformedOnly_cons_some {fuel : Nat} {c : Char} {cs : List Char} {m : FigMatch}
    (h : matchFigure (c :: cs) = some m) :
    malformedOnly (fuel + 1) (c :: cs) =
      ((figReplace m).2.isNone && malformedOnly fuel m.rest) := by
  simp only [malformedOnly]
  rw [h]

theorem malformedOnly_of_noMarker : ∀ (fuel : Nat) (l : List Char), noMarker l = true →
    malformedOnly fuel l = true
  | 0, _, _ => rfl
  | _ + 1, [], _ => rfl
  | fuel + 1, c :: cs, h => by
    unfold noMarker at h
    rw [Bool.and_eq_true] at h
    obtain ⟨h1, h2⟩ := h
    cases hmf : matchFigure (c :: cs) with
    | some m => rw [hmf] at h1; exact absurd h1 (by simp)
    | none =>
      rw [malformedOnly_cons_none hmf]
      exact malformedOnly_of_noMarker fuel cs h2

theorem subFigF_malformed : ∀ (fuel : Nat) (l : List Char), l.length ≤ fuel →
    malformedOnly fuel l = true → subFigF fuel l = ([], l)
  | 0, _, _, _ => rfl
  | _ + 1, [], _, _ => rfl
  | fuel + 1, c :: cs, hlen, hm => by
    cases hmf : matchFigure (c :: cs) with
    | none =>
      rw [malformedOnly_cons_none hmf] at hm
      have hlen2 : cs.length ≤ fuel := Nat.le_of_succ_le_succ hlen
      have ih := subFigF_malformed fuel cs hlen2 hm
      rw [subFigF_cons_none hmf, ih]
    | some m =>
      rw [malformedOnly_cons_some hmf] at hm
      rw [Bool.and_eq_true] at hm
      obtain ⟨h1, h2⟩ := hm
      have hnone : (figReplace m).2 = none := Option.isNone_iff_eq_none.mp h1
      obtain ⟨hdec, hne⟩ := matchFigure_decomp hmf
      have hlen2 : m.rest.length ≤ fuel := by
        have h3 : (c :: cs).length = m.matched.length + m.rest.length := by
          rw [hdec]
          exact List.length_append _ _
        have h4 : 1 ≤ m.matched.length := by
          cases hmm : m.matched with
          | nil => exact absurd hmm hne
          | cons x xs => simp
        have h5 : (c :: cs).length = cs.length + 1 := List.length_cons c cs
        omega
      have ih := subFigF_malformed fuel m.rest hlen2 h2
      rw [subFigF_cons_some hmf, ih, hnone, figReplace_none_matched hnone]
      simp [← hdec]

theorem extract_malformed (s : String)
    (h : malformedOnly s.data.length s.data = true) :
    extractEmbeddedFigures s = (s, []) := by
  unfold extractEmbeddedFigures
  by_cases hs : s = ""
  · rw [if_pos hs]
  · rw [if_neg hs]
    have hid := subFigF_malformed s.data.length s.data (Nat.le_refl _) h
    show (String.mk (subFigF s.data.length s.data).2, (subFigF s.data.length s.data).1) = (s, [])
    rw [hid]

theorem extract_noMarker (s : String) (h : noMarker s.data = true) :
    extractEmbeddedFigures s = (s, []) :=
  extract_malformed s (malformedOnly_of_noMarker _ _ h)

/-! ### The dedup invariant over the event loop -/

/-- The artifacts collected from the event stream that carry a name are pairwise
distinct in `(name, data)`, and every such key has been recorded in the seen
set. -/
def ArtInv (st : TurnState) : Prop :=
  (namedKeys st.artifacts).Nodup ∧ ∀ k ∈ namedKeys st.artifacts, k ∈ st.seen

theorem namedKeys_append (l₁ l₂ : List ArtifactEntry) :
    namedKeys (l₁ ++ l₂) = namedKeys l₁ ++ namedKeys l₂ :=
  List.filterMap_append l₁ l₂ namedKey

theorem artInv_init : ArtInv initTurnState := by
  constructor
  · simp [initTurnState, namedKeys]
  · intro k hk
    simp [initTurnState, namedKeys] at hk

theorem ArtInv.append_named {st : TurnState} (inv : ArtInv st) {a : ArtifactEntry}
    {key : String × String} (hk : namedKey a = some key) (hfresh : key ∉ st.seen) :
    ArtInv { st with artifacts := st.artifacts ++ [a], seen := key :: st.seen } := by
  obtain ⟨hnd, hsub⟩ := inv
  have hsingle : namedKeys [a] = [key] := by simp [namedKeys, hk]
  constructor
  · show (namedKeys (st.artifacts ++ [a])).Nodup
    rw [namedKeys_append, hsingle, List.nodup_append]
    refine ⟨hnd, List.nodup_singleton _, ?_⟩
    intro x hx hx'
    simp only [List.mem_singleton] at hx'
    subst hx'
    exact hfresh (hsub _ hx)
  · intro k hk'
    rw [namedKeys_append, hsingle, List.mem_append] at hk'
    rcases hk' with hk' | hk'
    · exact List.mem_cons_of_mem _ (hsub _ hk')
    · simp only [List.mem_singleton] at hk'
      subst hk'
      exact List.mem_cons_self _ _

theorem ArtInv.append_nameless {st : TurnState} (inv : ArtInv st) {a : ArtifactEntry}
    (hk : namedKey a = none) :
    ArtInv { st with artifacts := st.artifacts ++ [a] } := by
  obtain ⟨hnd, hsub⟩ := inv
  have hsingle : namedKeys [a] = [] := by simp [namedKeys, hk]
  constructor
  · show (namedKeys (st.artifacts ++ [a])).Nodup
    rw [namedKeys_append, hsingle, List.append_nil]
    exact hnd
  · intro k hk'
    rw [namedKeys_append, hsingle, List.append_nil] at hk'
    exact hsub _ hk'

theorem artInv_pushText {st : TurnState} (p : PartE) (inv : ArtInv st) :
    ArtInv (pushText p st) := by
  unfold pushText
  rcases p.text with _ | t
  · exact inv
  · dsimp only
    by_cases ht : t = ""
    · rw [if_pos ht]; exact inv
    · rw [if_neg ht]; exact inv

theorem artInv_pushToolCall {st : TurnState} (p : PartE) (inv : ArtInv st) :
    ArtInv (pushToolCall p st) := by
  unfold pushToolCall
  rcases p.functionCall with _ | fc
  · exact inv
  · exact inv

theorem artInv_pushToolResponse {st : TurnState} (p : PartE) (inv : ArtInv st) :
    ArtInv (pushToolResponse p st) := by
  unfold pushToolResponse
  rcases p.functionResponse with _ | fr
  · exact inv
  · exact inv

theorem artInv_ingestOutputFile {st : TurnState} (inv : ArtInv st) (f : OutputFileE) :
    ArtInv (ingestOutputFile st f) := by
  unfold ingestOutputFile
  rcases f.content with _ | enc
  · exact inv
  · dsimp only
    by_cases h1 : enc = ""
    · rw [if_pos h1]; exact inv
    · rw [if_neg h1]
      by_cases h2 : (pyOr f.name "artifact", enc) ∈ st.seen
      · rw [if_pos h2]; exact inv
      · rw [if_neg h2]
        exact inv.append_named rfl h2

theorem artInv_ingestCodeResult {st : TurnState} (p : PartE) (inv : ArtInv st) :
    ArtInv (ingestCodeResult p st) := by
  unfold ingestCodeResult
  rcases p.codeExecutionResult with _ | cr
  · exact inv
  · dsimp only
    generalize cr.outputFiles.getD [] = files
    induction files generalizing st with
    | nil => exact inv
    | cons f fs ih => exact ih (artInv_ingestOutputFile inv f)

theorem artInv_inlineFirst {st st' : TurnState} (p : PartE) (inv : ArtInv st)
    (h : inlineFirst p st = .ok st') : ArtInv st' := by
  unfold inlineFirst at h
  rcases hbl : p.inlineData with _ | bl
  · rw [hbl] at h; cases h; exact inv
  · rw [hbl] at h
    dsimp only at h
    rcases hd : bl.data with _ | d
    · rw [hd] at h; cases h; exact inv
    · rw [hd] at h
      dsimp only at h
      by_cases htr : blobTruthy d = true
      · rw [if_pos htr] at h
        rcases d with s | b
        · dsimp only at h
          cases h
          exact inv.append_nameless rfl
        · dsimp only at h
          rcases hu : utf8Decode b with _ | cs
          · rw [hu] at h
            exact absurd h (by simp)
          · rw [hu] at h
            dsimp only at h
            cases h
            exact inv.append_nameless rfl
      · rw [if_neg htr] at h
        cases h
        exact inv

theorem artInv_inlineSecond {st : TurnState} (p : PartE) (inv : ArtInv st) :
    ArtInv (inlineSecond p st) := by
  unfold inlineSecond
  rcases p.inlineData with _ | bl
  · exact inv
  · dsimp only
    rcases bl.data with _ | d
    · exact inv
    · dsimp only
      by_cases hd : blobTruthy d = true
      · rw [if_pos hd]
        by_cases h2 : (pyOr bl.displayName "artifact", normalizeB64 d) ∈ st.seen
        · rw [if_pos h2]; exact inv
        · rw [if_neg h2]
          exact inv.append_named rfl h2
      · rw [if_neg hd]; exact inv

theorem artInv_ingestDeltaItem {st : TurnState} (store : Store) (inv : ArtInv st)
    (item : String × Nat) : ArtInv (ingestDeltaItem store st item) := by
  unfold ingestDeltaItem
  rcases store item.1 item.2 with _ | p
  · exact inv
  · dsimp only
    rcases p.inlineData with _ | bl
    · exact inv
    · dsimp only
      rcases bl.data with _ | d
      · exact inv
      · dsimp only
        by_cases hd : blobTruthy d = true
        · rw [if_pos hd]
          by_cases h2 : (item.1, normalizeB64 d) ∈ st.seen
          · rw [if_pos h2]; exact inv
          · rw [if_neg h2]
            exact inv.append_named rfl h2
        · rw [if_neg hd]; exact inv

theorem artInv_processDelta {st : TurnState} (store : Store) (acts : Option ActionsE)
    (inv : ArtInv st) : ArtInv (processDelta store acts st) := by
  unfold processDelta
  rcases acts with _ | a
  · exact inv
  · dsimp only
    rcases a.artifactDelta with _ | items
    · exact inv
    · dsimp only
      by_cases hi : items = []
      · rw [if_pos hi]; exact inv
      · rw [if_neg hi]
        clear hi
        induction items generalizing st with
        | nil => exact inv
        | cons it its ih => exact ih (artInv_ingestDeltaItem store inv it)

theorem artInv_processPart {st st' : TurnState} (p : PartE) (inv : ArtInv st)
    (h : processPart st p = .ok st') : ArtInv st' := by
  unfold processPart at h
  dsimp only at h
  have inv4 := artInv_ingestCodeResult p
    (artInv_pushToolResponse p (artInv_pushToolCall p (artInv_pushText p inv)))
  cases h5 : inlineFirst p (ingestCodeResult p
      (pushToolResponse p (pushToolCall p (pushText p st)))) with
  | error e => rw [h5] at h; exact absurd h (by simp)
  | ok st5 =>
    rw [h5] at h
    dsimp only at h
    cases h
    exact artInv_inlineSecond p (artInv_inlineFirst p inv4 h5)

theorem artInv_processParts : ∀ (ps : List PartE) {st st' : TurnState}, ArtInv st →
    processParts st ps = .ok st' → ArtInv st'
  | [], st, st', inv, h => by cases h; exact inv
  | p :: ps, st, st', inv, h => by
    unfold processParts at h
    cases hp : processPart st p with
    | error e => rw [hp] at h; exact absurd h (by simp)
    | ok st1 =>
      rw [hp] at h
      exact artInv_processParts ps (artInv_processPart p inv hp) h

theorem artInv_processEvent {store : Store} {st st' : TurnState} (ev : EventE)
    (inv : ArtInv st) (h : processEvent store st ev = .ok st') : ArtInv st' := by
  unfold processEvent at h
  rcases hc : ev.content with _ | c
  · rw [hc] at h; cases h; exact inv
  · rw [hc] at h
    dsimp only at h
    rcases hps : c.parts with _ | ps
    · rw [hps] at h; cases h; exact inv
    · rw [hps] at h
      rcases ps with _ | ⟨p, ps⟩
      · dsimp only at h; cases h; exact inv
      · dsimp only at h
        cases hp : processParts st (p :: ps) with
        | error e => rw [hp] at h; exact absurd h (by simp)
        | ok st1 =>
          rw [hp] at h
          dsimp only at h
          cases h
          exact artInv_processDelta store ev.actions (artInv_processParts _ inv hp)

theorem artInv_processEvents : ∀ (evs : List EventE) {store : Store} {st st' : TurnState},
    ArtInv st → processEvents store st evs = .ok st' → ArtInv st'
  | [], _, st, st', inv, h => by cases h; exact inv
  | ev :: evs, store, st, st', inv, h => by
    unfold processEvents at h
    cases he : processEvent store st ev with
    | error e => rw [he] at h; exact absurd h (by simp)
    | ok st1 =>
      rw [he] at h
      exact artInv_processEvents evs (artInv_processEvent ev inv he) h

/-! ### Text-chunk tracking over the event loop -/

theorem textChunks_pushText (p : PartE) (st : TurnState) :
    (pushText p st).textChunks = st.textChunks ++ (partTextFragment p).toList := by
  unfold pushText partTextFragment
  rcases p.text with _ | t
  · simp
  · dsimp only
    by_cases ht : t = ""
    · rw [if_pos ht, if_pos ht]; simp
    · rw [if_neg ht, if_neg ht]; simp

theorem textChunks_pushToolCall (p : PartE) (st : TurnState) :
    (pushToolCall p st).textChunks = st.textChunks := by
  unfold pushToolCall
  rcases p.functionCall with _ | fc <;> rfl

theorem textChunks_pushToolResponse (p : PartE) (st : TurnState) :
    (pushToolResponse p st).textChunks = st.textChunks := by
  unfold pushToolResponse
  rcases p.functionResponse with _ | fr <;> rfl

theorem textChunks_ingestOutputFile (st : TurnState) (f : OutputFileE) :
    (ingestOutputFile st f).textChunks = st.textChunks := by
  unfold ingestOutputFile
  rcases f.content with _ | enc
  · rfl
  · dsimp only
    by_cases h1 : enc = ""
    · rw [if_pos h1]
    · rw [if_neg h1]
      by_cases h2 : (pyOr f.name "artifact", enc) ∈ st.seen
      · rw [if_pos h2]
      · rw [if_neg h2]

theorem textChunks_ingestCodeResult (p : PartE) (st : TurnState) :
    (ingestCodeResult p st).textChunks = st.textChunks := by
  unfold ingestCodeResult
  rcases p.codeExecutionResult with _ | cr
  · rfl
  · dsimp only
    generalize cr.outputFiles.getD [] = files
    induction files generalizing st with
    | nil => rfl
    | cons f fs ih =>
      show (fs.foldl ingestOutputFile (ingestOutputFile st f)).textChunks = _
      rw [ih (ingestOutputFile st f), textChunks_ingestOutputFile]

theorem textChunks_inlineFirst {st st' : TurnState} (p : PartE)
    (h : inlineFirst p st = .ok st') : st'.textChunks = st.textChunks := by
  unfold inlineFirst at h
  rcases hbl : p.inlineData with _ | bl
  · rw [hbl] at h; cases h; rfl
  · rw [hbl] at h
    dsimp only at h
    rcases hd : bl.data with _ | d
    · rw [hd] at h; cases h; rfl
    · rw [hd] at h
      dsimp only at h
      by_cases htr : blobTruthy d = true
      · rw [if_pos htr] at h
        rcases d with s | b
        · dsimp only at h; cases h; rfl
        · dsimp only at h
          rcases hu : utf8Decode b with _ | cs
          · rw [hu] at h
            exact absurd h (by simp)
          · rw [hu] at h
            dsimp only at h
            cases h; rfl
      · rw [if_neg htr] at h
        cases h; rfl

theorem textChunks_inlineSecond (p : PartE) (st : TurnState) :
    (inlineSecond p st).textChunks = st.textChunks := by
  unfold inlineSecond
  rcases p.inlineData with _ | bl
  · rfl
  · dsimp only
    rcases bl.data with _ | d
    · rfl
    · dsimp only
      by_cases hd : blobTruthy d = true
      · rw [if_pos hd]
        by_cases h2 : (pyOr bl.displayName "artifact", normalizeB64 d) ∈ st.seen
        · rw [if_pos h2]
        · rw [if_neg h2]
      · rw [if_neg hd]

theorem textChunks_ingestDeltaItem (store : Store) (st : TurnState) (item : String × Nat) :
    (ingestDeltaItem store st item).textChunks = st.textChunks := by
  unfold ingestDeltaItem
  rcases store item.1 item.2 with _ | p
  · rfl
  · dsimp only
    rcases p.inlineData with _ | bl
    · rfl
    · dsimp only
      rcases bl.data with _ | d
      · rfl
      · dsimp only
        by_cases hd : blobTruthy d = true
        · rw [if_pos hd]
          by_cases h2 : (item.1, normalizeB64 d) ∈ st.seen
          · rw [if_pos h2]
          · rw [if_neg h2]
        · rw [if_neg hd]

theorem textChunks_processDelta (store : Store) (acts : Option ActionsE) (st : TurnState) :
    (processDelta store acts st).textChunks = st.textChunks := by
  unfold processDelta
  rcases acts with _ | a
  · rfl
  · dsimp only
    rcases a.artifactDelta with _ | items
    · rfl
    · dsimp only
      by_cases hi : items = []
      · rw [if_pos hi]
      · rw [if_neg hi]
        clear hi
        induction items generalizing st with
        | nil => rfl
        | cons it its ih =>
          show (its.foldl (ingestDeltaItem store) (ingestDeltaItem store st it)).textChunks = _
          rw [ih (ingestDeltaItem store st it), textChunks_ingestDeltaItem]

theorem textChunks_processPart {st st' : TurnState} (p : PartE)
    (h : processPart st p = .ok st') :
    st'.textChunks = st.textChunks ++ (partTextFragment p).toList := by
  unfold processPart at h
  dsimp only at h
  cases h5 : inlineFirst p (ingestCodeResult p
      (pushToolResponse p (pushToolCall p (pushText p st)))) with
  | error e => rw [h5] at h; exact absurd h (by simp)
  | ok st5 =>
    rw [h5] at h
    dsimp only at h
    cases h
    rw [textChunks_inlineSecond, textChunks_inlineFirst p h5, textChunks_ingestCodeResult,
      textChunks_pushToolResponse, textChunks_pushToolCall, textChunks_pushText]

theorem textChunks_processParts : ∀ (ps : List PartE) {st st' : TurnState},
    processParts st ps = .ok st' →
    st'.textChunks = st.textChunks ++ ps.filterMap partTextFragment
  | [], st, st', h => by cases h; simp
  | p :: ps, st, st', h => by
    unfold processParts at h
    cases hp : processPart st p with
    | error e => rw [hp] at h; exact absurd h (by simp)
    | ok st1 =>
      rw [hp] at h
      have h1 := textChunks_processPart p hp
      have h2 := textChunks_processParts ps h
      rw [h2, h1]
      rcases hf : partTextFragment p with _ | t <;> simp [hf]

theorem textChunks_processEvent {store : Store} {st st' : TurnState} (ev : EventE)
    (h : processEvent store st ev = .ok st') :
    st'.textChunks = st.textChunks ++ eventTextFragments ev := by
  unfold processEvent at h
  unfold eventTextFragments
  rcases hc : ev.content with _ | c
  · rw [hc] at h; cases h; simp
  · rw [hc] at h
    dsimp only at h ⊢
    rcases hps : c.parts with _ | ps
    · rw [hps] at h; cases h; simp
    · rw [hps] at h
      rcases ps with _ | ⟨p, ps⟩
      · dsimp only at h; cases h; simp
      · dsimp only at h ⊢
        cases hp : processParts st (p :: ps) with
        | error e => rw [hp] at h; exact absurd h (by simp)
        | ok st1 =>
          rw [hp] at h
          dsimp only at h
          cases h
          rw [textChunks_processDelta, textChunks_processParts _ hp]

theorem textChunks_processEvents : ∀ (evs : List EventE) {store : Store} {st st' : TurnState},
    processEvents store st evs = .ok st' →
    st'.textChunks = st.textChunks ++ turnTextFragments evs
  | [], _, st, st', h => by cases h; simp [turnTextFragments]
  | ev :: evs, store, st, st', h => by
    unfold processEvents at h
    cases he : processEvent store st ev with
    | error e => rw [he] at h; exact absurd h (by simp)
    | ok st1 =>
      rw [he] at h
      have h1 := textChunks_processEvent ev he
      have h2 := textChunks_processEvents evs h
      rw [h2, h1]
      simp [turnTextFragments, List.append_assoc]

deriving instance DecidableEq for Except

/-! ### Concrete fixtures used by witnesses and counterexamples -/

/-- An artifact store holding no artifacts. -/
def emptyStore : Store := fun _ _ => none

/-- An event carrying one text part. -/
def textEvent (t : String) : EventE :=
  { content := some { parts := some [{ text := some t }] } }

/-- An event carrying one inline-data part whose payload is text. -/
def inlineStrEvent (s : String) : EventE :=
  { content := some { parts := some [{ inlineData := some { data := some (.str s) } }] } }

/-- An event carrying one inline-data part whose payload is a byte that is not
valid UTF-8. -/
def badBytesEvent : EventE :=
  { content := some { parts := some [{ inlineData := some { data := some (.bytes [255]) } }] } }

/-- A marker whose bracketed title itself spells an untitled marker; the
replacement juxtaposes it into new marker text. -/
def nestedMarkerText : String :=
  "FIGURE[FIGURE: data:image/png;base64,QUJD]: data:image/png;base64,QUJE"

/-- The turn state reached on two identical inline-data events. -/
def stW : TurnState :=
  { textChunks := [], toolCalls := [], toolResponses := [],
    artifacts :=
      [{ name := none, mimeType := "application/octet-stream", data := "QUJD",
         displayName := none },
       { name := some "artifact", mimeType := "application/octet-stream", data := "QUJD",
         displayName := none },
       { name := none, mimeType := "application/octet-stream", data := "QUJD",
         displayName := none }],
    seen := [("artifact", "QUJD")] }

/-- The result of a turn whose events carry the text fragments A and B. -/
def resAB : SendResult :=
  { text := "AB", toolCalls := [], toolResponses := [], artifacts := [] }

/-! ### Claim theorems -/

/-- C1 counterexample: a turn whose text carries two identical well-formed
figure markers returns an artifact list with two entries sharing the same
`(name, data)` pair — the figure-extractor ingestion point appends without any
dedup check, so the claimed invariant fails on `send_message` as written. -/
theorem sendMessage_dedup_cex :
    (sendMessage emptyStore [textEvent
      "FIGURE[a]: data:image/png;base64,QUJD. FIGURE[a]: data:image/png;base64,QUJD"]).map
      (fun r => r.artifacts.map (fun a => (a.name, a.data))) =
    .ok [(some "a.png", "QUJD"), (some "a.png", "QUJD")] := by decide

/-- C1 (corrected): the `(name, encoded)` dedup set is checked before the
appends of the code-execution-output, second inline-data and delta-fetch
ingestion points, so among the artifacts collected from the event stream
(before figure-extractor artifacts are appended) the entries that carry a name
are pairwise distinct in `(name, data)`; the nameless first-inline-branch
entries and the extractor output are appended without a check. -/
theorem processEvents_namedKeys_nodup (store : Store) (events : List EventE)
    (st' : TurnState) (h : processEvents store initTurnState events = .ok st') :
    (namedKeys st'.artifacts).Nodup :=
  (artInv_processEvents events artInv_init h).1

/-- C1 witness: two identical inline-data events leave exactly one named entry. -/
theorem processEvents_namedKeys_nodup_witness :
    processEvents emptyStore initTurnState [inlineStrEvent "QUJD", inlineStrEvent "QUJD"] =
        .ok stW ∧
      (namedKeys stW.artifacts).Nodup :=
  ⟨by decide,
   processEvents_namedKeys_nodup emptyStore [inlineStrEvent "QUJD", inlineStrEvent "QUJD"]
     stW (by decide)⟩

/-- C2 (code_bug): one event part carrying an inline-data payload produces TWO
artifact entries, not one — the first appended by the duplicated first
inline-data branch with the raw payload un-normalized, no name and no dedup
check, the second by the normalizing branch.  Evaluated at the failing input
(payload the non-base64 text hi!). -/
theorem sendMessage_inline_two_artifacts :
    (sendMessage emptyStore [inlineStrEvent "hi!"]).map
      (fun r => r.artifacts.map (fun a => (a.name, a.data))) =
    .ok [(none, "hi!"), (some "artifact", "aGkh")] := by decide

/-- C3 counterexample: a well-formed marker whose data URI carries a non-image
MIME type is not matched by the pattern at all — the text is returned unchanged
and no artifact with that MIME type is produced. -/
theorem extract_nonimage_mime_cex :
    extractEmbeddedFigures "FIGURE[t]: data:application/pdf;base64,QUJD" =
      ("FIGURE[t]: data:application/pdf;base64,QUJD", []) := by decide

/-- C3 (corrected): for every well-formed marker
`FIGURE[title]: data:image/<subtype>;base64,<payload>` — the pattern only
matches `image/` MIME types — whose payload is valid base64 after whitespace
removal, extraction yields exactly one artifact whose MIME type is
`image/<subtype>` and whose data equals the payload unchanged after
whitespace removal, and the returned text contains the bracketed reference
holding the title stripped of surrounding whitespace (the sanitized default
figure when the stripped title is empty) in place of the matched span. -/
theorem extract_wellformed_marker (T S P : List Char)
    (hT0 : T ≠ []) (hT : ∀ c ∈ T, isTitleChar c = true)
    (hS0 : S ≠ []) (hS : ∀ c ∈ S, isSubtypeChar c = true)
    (hP0 : P ≠ []) (hP : ∀ c ∈ P, isPayloadChar c = true)
    (hb : b64Valid (P.filter (fun c => !isPySpace c)) = true) :
    ∃ a, extractEmbeddedFigures (markerString T S P) =
        (String.mk ("[See figure: ".data ++ (displayOf T ++ "]".data)), [a]) ∧
      a.mimeType = String.mk ("image/".data ++ S) ∧
      a.data = String.mk (P.filter (fun c => !isPySpace c)) := by
  rw [extract_marker T S P hT0 hT hS0 hS hP0 hP,
    figReplace_markerGen (markerMatch T S P) T S P rfl rfl hS, if_pos hb]
  refine ⟨{ name := some (String.mk (pngNameOf T)),
            mimeType := String.mk ("image/".data ++ (S ++ [])),
            data := String.mk (P.filter (fun c => !isPySpace c)),
            displayName := some (String.mk (displayOf T)) }, ?_, ?_, ?_⟩
  · simp
  · simp
  · rfl

/-- C3 witness: the spec scenario marker with payload QUJD, using the padded
title ` sales ` to exhibit the stripping in the reference. -/
theorem extract_wellformed_marker_witness :
    markerString " sales ".data "png".data "QUJD".data =
        "FIGURE[ sales ]: data:image/png;base64,QUJD" ∧
      ∃ a, extractEmbeddedFigures "FIGURE[ sales ]: data:image/png;base64,QUJD" =
          ("[See figure: sales]", [a]) ∧
        a.mimeType = "image/png" ∧ a.data = "QUJD" := by
  have hm : markerString " sales ".data "png".data "QUJD".data =
      "FIGURE[ sales ]: data:image/png;base64,QUJD" := by decide
  refine ⟨hm, ?_⟩
  obtain ⟨a, h1, h2, h3⟩ := extract_wellformed_marker " sales ".data "png".data "QUJD".data
    (by decide) (by decide) (by decide) (by decide) (by decide) (by decide) (by decide)
  refine ⟨a, ?_, ?_, ?_⟩
  · rw [← hm, h1]
    have hd : String.mk ("[See figure: ".data ++ (displayOf " sales ".data ++ "]".data)) =
        "[See figure: sales]" := by decide
    rw [hd]
  · rw [h2]
    decide
  · rw [h3]
    decide

/-- C4 (confirmed): on any text all of whose pattern matches along the scan
fail base64 validation — in particular a single malformed marker — the
extractor returns the input byte-for-byte and emits no artifact; markers with
an unparseable data-URI prefix never match and fall under the no-marker case.
The embedded function is total, modelling that `_extract_embedded_figures`
never raises (its only throwing call is inside `try`). -/
theorem extract_malformed_identity (s : String)
    (h : malformedOnly s.data.length s.data = true) :
    extractEmbeddedFigures s = (s, []) :=
  extract_malformed s h

/-- C4 witness: a marker whose payload QUJ is not valid base64 passes through
unchanged with no artifact. -/
theorem extract_malformed_identity_witness :
    malformedOnly "FIGURE[a]: data:image/png;base64,QUJ".data.length
        "FIGURE[a]: data:image/png;base64,QUJ".data = true ∧
      extractEmbeddedFigures "FIGURE[a]: data:image/png;base64,QUJ" =
        ("FIGURE[a]: data:image/png;base64,QUJ", []) :=
  ⟨by decide, extract_malformed_identity "FIGURE[a]: data:image/png;base64,QUJ" (by decide)⟩

/-- C5 counterexample: the extractor is not idempotent on its own output — a
title that spells an untitled marker is juxtaposed by the replacement into new
marker text, so a second run changes the text again and emits an artifact. -/
theorem extract_not_idempotent_cex :
    (extractEmbeddedFigures nestedMarkerText).1 =
        "[See figure: FIGURE: data:image/png;base64,QUJD]" ∧
      extractEmbeddedFigures "[See figure: FIGURE: data:image/png;base64,QUJD]" ≠
        ("[See figure: FIGURE: data:image/png;base64,QUJD]", []) := by
  constructor
  · decide
  · decide

/-- C5 (corrected): on every input in which no position begins a pattern match,
the extractor returns the input unchanged and an empty artifact list; the
parenthetical of the claim fails, since the extractor output can itself
contain markers (see the counterexample). -/
theorem extract_noMarker_identity (s : String) (h : noMarker s.data = true) :
    extractEmbeddedFigures s = (s, []) :=
  extract_noMarker s h

/-- C5 witness: marker-free prose is a fixed point with no artifacts. -/
theorem extract_noMarker_identity_witness :
    noMarker "All done.".data = true ∧
      extractEmbeddedFigures "All done." = ("All done.", []) :=
  ⟨by decide, extract_noMarker_identity "All done." (by decide)⟩

/-- C6 (confirmed): the text of a successful turn is exactly the truthy text
fragments of the events concatenated in arrival order with no separator,
stripped of surrounding whitespace, and then passed through the figure
extractor. -/
theorem sendMessage_text_eq (store : Store) (events : List EventE) (res : SendResult)
    (h : sendMessage store events = .ok res) :
    res.text = (extractEmbeddedFigures (pyStrip (String.join (turnTextFragments events)))).1 := by
  unfold sendMessage at h
  cases he : processEvents store initTurnState events with
  | error e => rw [he] at h; exact absurd h (by simp)
  | ok st =>
    rw [he] at h
    dsimp only at h
    cases h
    have ht := textChunks_processEvents events he
    simp only [initTurnState, List.nil_append] at ht
    rw [ht]

/-- C6 witness: fragments A then B aggregate to AB. -/
theorem sendMessage_text_eq_witness :
    sendMessage emptyStore [textEvent "A", textEvent "B"] = .ok resAB ∧ resAB.text = "AB" :=
  ⟨by decide, by
    have h := sendMessage_text_eq emptyStore [textEvent "A", textEvent "B"] resAB (by decide)
    rw [h]
    decide⟩

/-- C7 counterexample: the title with two consecutive spaces yields the
artifact name with the RUN of unsafe characters collapsed to a single
underscore, not one underscore per character as the claim words it. -/
theorem sanitize_run_collapse_cex :
    (extractEmbeddedFigures "FIGURE[a  b]: data:image/png;base64,QUJD").2.map
        (fun a => a.name) = [some "a_b.png"] ∧
      String.mk (sanitizePerChar "a  b".data ++ ".png".data) = "a__b.png" ∧
      ("a_b.png" : String) ≠ "a__b.png" := by
  refine ⟨by decide, by decide, by decide⟩

/-- C7 (corrected): the artifact name replaces each maximal run of characters
outside `[A-Za-z0-9._-]` in the stripped title with one underscore, defaults
to figure when the stripped title is empty, and appends `.png` unless the name
already ends in `.png` case-insensitively; the matched span is replaced by the
bracketed reference holding the stripped title, or the safe name when the
stripped title is empty.  The second conjunct covers the untitled marker
`FIGURE: data:image/<subtype>;base64,<payload>`: the absent title defaults to
figure, giving name `figure.png` and reference `[See figure: figure]`. -/
theorem extract_marker_name (T S P : List Char)
    (hT0 : T ≠ []) (hT : ∀ c ∈ T, isTitleChar c = true)
    (hS0 : S ≠ []) (hS : ∀ c ∈ S, isSubtypeChar c = true)
    (hP0 : P ≠ []) (hP : ∀ c ∈ P, isPayloadChar c = true)
    (hb : b64Valid (P.filter (fun c => !isPySpace c)) = true) :
    (extractEmbeddedFigures (markerString T S P) =
      (String.mk ("[See figure: ".data ++ (displayOf T ++ "]".data)),
       [{ name := some (String.mk (pngNameOf T)),
          mimeType := String.mk ("image/".data ++ S),
          data := String.mk (P.filter (fun c => !isPySpace c)),
          displayName := some (String.mk (displayOf T)) }])) ∧
    (extractEmbeddedFigures (markerStringNT S P) =
      ("[See figure: figure]",
       [{ name := some "figure.png",
          mimeType := String.mk ("image/".data ++ S),
          data := String.mk (P.filter (fun c => !isPySpace c)),
          displayName := some "figure" }])) := by
  constructor
  · rw [extract_marker T S P hT0 hT hS0 hS hP0 hP,
      figReplace_markerGen (markerMatch T S P) T S P rfl rfl hS, if_pos hb]
    simp
  · rw [extract_markerNT S P hS0 hS hP0 hP,
      figReplace_markerGen (markerMatchNT S P) "figure".data S P rfl rfl hS, if_pos hb]
    have h1 : String.mk ("[See figure: ".data ++ (displayOf "figure".data ++ "]".data)) =
        "[See figure: figure]" := by decide
    have h2 : String.mk (pngNameOf "figure".data) = "figure.png" := by decide
    have h3 : String.mk (displayOf "figure".data) = "figure" := by decide
    rw [h1, h2, h3]
    simp

/-- C7 witness: a title with a space and a bang sanitizes by runs, and an
untitled marker defaults to figure.png. -/
theorem extract_marker_name_witness :
    extractEmbeddedFigures (markerString "My Plot!".data "png".data "QUJD".data) =
        ("[See figure: My Plot!]",
         [{ name := some "My_Plot_.png", mimeType := "image/png", data := "QUJD",
            displayName := some "My Plot!" }]) ∧
      markerStringNT "png".data "QUJD".data = "FIGURE: data:image/png;base64,QUJD" ∧
      extractEmbeddedFigures "FIGURE: data:image/png;base64,QUJD" =
        ("[See figure: figure]",
         [{ name := some "figure.png", mimeType := "image/png", data := "QUJD",
            displayName := some "figure" }]) := by
  obtain ⟨h1, h2⟩ := extract_marker_name "My Plot!".data "png".data "QUJD".data
    (by decide) (by decide) (by decide) (by decide) (by decide) (by decide) (by decide)
  have hm : markerStringNT "png".data "QUJD".data = "FIGURE: data:image/png;base64,QUJD" := by
    decide
  refine ⟨?_, hm, ?_⟩
  · rw [h1]
    decide
  · rw [← hm, h2]
    decide

/-- C8 (confirmed): whenever consuming the event stream raises, the API
boundary returns the single generic HTTP 500 failure with the opaque detail,
and no partial text, tool calls or artifacts — the error value carries no
result data. -/
theorem createChatCompletion_failure (store : Store) (events : List EventE) (e : TurnError)
    (h : sendMessage store events = .error e) :
    createChatCompletion (sendMessage store events) =
      .error (.httpException 500 "Failed to retrieve agent response.") := by
  rw [h]
  rfl

/-- C8 witness: an inline-data part with invalid UTF-8 bytes makes the turn
fail and the boundary converts it to the generic 500. -/
theorem createChatCompletion_failure_witness :
    sendMessage emptyStore [badBytesEvent] = .error .unicodeDecodeError ∧
      createChatCompletion (sendMessage emptyStore [badBytesEvent]) =
        .error (.httpException 500 "Failed to retrieve agent response.") :=
  ⟨by decide,
   createChatCompletion_failure emptyStore [badBytesEvent] .unicodeDecodeError (by decide)⟩

/-- C9 (confirmed): `_ensure_session` returns the stored handle when present
and otherwise creates and stores a fresh one; a repeated call returns the same
handle without changing the registry, and no existing entry is ever removed. -/
theorem ensureSession_spec (st : SessionState) (userId : String) :
    (∀ h, st.sessions.lookup userId = some h → ensureSession st userId = (h, st)) ∧
    ((ensureSession st userId).2.sessions.lookup userId = some (ensureSession st userId).1) ∧
    (ensureSession (ensureSession st userId).2 userId =
      ((ensureSession st userId).1, (ensureSession st userId).2)) ∧
    (∀ u' h', st.sessions.lookup u' = some h' →
      (ensureSession st userId).2.sessions.lookup u' = some h') := by
  cases hl : st.sessions.lookup userId with
  | some h0 =>
    have he : ensureSession st userId = (h0, st) := by
      unfold ensureSession
      rw [hl]
    refine ⟨?_, ?_, ?_, ?_⟩
    · intro h hx
      cases hx
      exact he
    · rw [he]
      exact hl
    · rw [he]
      exact he
    · intro u' h' hx
      rw [he]
      exact hx
  | none =>
    have he : ensureSession st userId =
        (st.nextHandle,
         { sessions := (userId, st.nextHandle) :: st.sessions,
           nextHandle := st.nextHandle + 1 }) := by
      unfold ensureSession
      rw [hl]
    refine ⟨?_, ?_, ?_, ?_⟩
    · intro h hx
      cases hx
    · rw [he]
      simp [List.lookup]
    · rw [he]
      unfold ensureSession
      simp [List.lookup]
    · intro u' h' hx
      rw [he]
      by_cases hu : userId = u'
      · subst hu
        rw [hl] at hx
        cases hx
      · have hne : (u' == userId) = false := beq_eq_false_iff_ne.mpr (fun hh => hu hh.symm)
        simp [List.lookup, hne]
        exact hx

/-- C9 witness: a stored handle is returned as-is, and a fresh user gets their
new handle stored. -/
theorem ensureSession_spec_witness :
    ensureSession { sessions := [("alice", 7)], nextHandle := 8 } "alice" =
        (7, { sessions := [("alice", 7)], nextHandle := 8 }) ∧
      (ensureSession { sessions := [], nextHandle := 0 } "bob").2.sessions.lookup "bob" =
        some (ensureSession { sessions := [], nextHandle := 0 } "bob").1 :=
  ⟨(ensureSession_spec { sessions := [("alice", 7)], nextHandle := 8 } "alice").1 7 (by decide),
   (ensureSession_spec { sessions := [], nextHandle := 0 } "bob").2.1⟩

/-- C10 (confirmed): an event stream with one inline-data part whose payload
is valid-base64 text makes `send_message` return an artifacts list whose first
entry carries no name field at all (appended by the first inline-data branch),
and the outbound `Artifact` schema, whose name is required, rejects the
result. -/
theorem sendMessage_nameless_artifact :
    ∃ r, sendMessage emptyStore [inlineStrEvent "QUJD"] = .ok r ∧
      r.artifacts.map (fun a => a.name) = [none, some "artifact"] ∧
      createChatCompletion (sendMessage emptyStore [inlineStrEvent "QUJD"]) =
        .error .validationError := by
  refine ⟨{ text := "", toolCalls := [], toolResponses := [],
            artifacts :=
              [{ name := none, mimeType := "application/octet-stream", data := "QUJD",
                 displayName := none },
               { name := some "artifact", mimeType := "application/octet-stream",
                 data := "QUJD", displayName := none }] }, ?_, ?_, ?_⟩
  · decide
  · decide
  · decide

end DSAgent
